import Mathlib

/-!
A shallow embedding of the RustFS control plane (master metadata handlers in
`src/master_impl.rs`, the heartbeat-checker repair loop in
`src/master_service.rs`, and the chunkserver read / OTP paths in
`src/chunkserver_impl.rs` and `src/chunkserver_service.rs`), together with
theorems settling the specification claims about them.

Modelling conventions:
* `HashMap<String, V>` becomes an association list `List (String × V)`;
  `insert` replaces the value when the key is present and appends otherwise,
  `get_mut`-style mutation maps the value at the key and is a no-op when the
  key is absent, mirroring `if let Some(v) = map.get_mut(k)`.
* `BinaryHeap<Reverse<(usize, String)>>` pops the lexicographically smallest
  `(load, addr)` pair; `String` ordering is byte order in Rust, modelled here
  on the character lists of the (ASCII) addresses.
* Wall-clock time is an explicit `now : Nat` argument.  The only failure path
  this hides is `SystemTime::duration_since(UNIX_EPOCH)` erroring for
  pre-epoch clocks.
* gRPC `Status` results are modelled by their error class only; response
  messages are kept where a claim could observe them.
* Blob storage on a chunkserver is a map from blob name to its byte contents;
  the UTF-8 re-validation of `ReadResponse.content` is elided (it can only
  turn a success into a further `Internal`, which no claim observes).
-/

namespace RustFS

/-- Error classes of `tonic::Status` used by the handlers. -/
inductive ErrCode where
  | notFound
  | invalidArgument
  | unauthenticated
  | internal
  | unavailable
deriving Repr, DecidableEq

/-! ### Association-list model of `HashMap` -/

/-- Rust `HashMap::get` (cloned). -/
def alookup {α : Type} (m : List (String × α)) (k : String) : Option α :=
  (m.find? (fun p => p.1 == k)).map Prod.snd

/-- Rust `HashMap::contains_key`. -/
def containsKey {α : Type} (m : List (String × α)) (k : String) : Bool :=
  m.any (fun p => p.1 == k)

/-- Rust `HashMap::insert`: replace the value when the key is present, otherwise add. -/
def ainsert {α : Type} (m : List (String × α)) (k : String) (v : α) : List (String × α) :=
  if containsKey m k then m.map (fun p => if p.1 == k then (k, v) else p) else m ++ [(k, v)]

/-- Rust `HashMap::remove` (the removed value is read off separately with `alookup`). -/
def aremove {α : Type} (m : List (String × α)) (k : String) : List (String × α) :=
  m.filter (fun p => p.1 != k)

/-- Model of `if let Some(v) = map.get_mut(k)` followed by a mutation of `v`:
mutate the value in place, no-op when the key is absent. -/
def amodify {α : Type} (m : List (String × α)) (k : String) (f : α → α) : List (String × α) :=
  m.map (fun p => if p.1 == k then (p.1, f p.2) else p)

/-! ### String helpers

`String.splitOn` does not reduce in the kernel, so the prefix-before-
`"_chunk_"` operation of `chunk_id.split("_chunk_").next()` and the byte-wise
`Ord` on `String` are implemented directly on character lists. -/

/-- Lexicographic strict order on character lists (Rust `Ord` for `String`,
byte order; the addresses in this development are ASCII). -/
def charListLt : List Char → List Char → Bool
  | [], [] => false
  | [], _ :: _ => true
  | _ :: _, [] => false
  | a :: as, b :: bs =>
    if a.toNat < b.toNat then true
    else if b.toNat < a.toNat then false
    else charListLt as bs

/-- Rust `String` `<`. -/
def strLtB (a b : String) : Bool := charListLt a.data b.data

def isPrefixOfCL : List Char → List Char → Bool
  | [], _ => true
  | _ :: _, [] => false
  | a :: as, b :: bs => a == b && isPrefixOfCL as bs

/-- Characters of `l` strictly before the first occurrence of `pat`
(all of `l` when `pat` does not occur). -/
def splitBeforeCL (pat : List Char) : List Char → List Char
  | [] => []
  | c :: cs => if isPrefixOfCL pat (c :: cs) then [] else c :: splitBeforeCL pat cs

/-- The file-name part, `chunk_id.split("_chunk_").next().unwrap_or_default()`,
of a chunk id (the whole id when `"_chunk_"` does not occur; `split` always
yields at least the leading piece, so the `unwrap_or_default` arm is dead). -/
def fileNamePart (chunk_id : String) : String :=
  String.mk (splitBeforeCL "_chunk_".data chunk_id.data)

/-! ### Data model (`src/master_service.rs`) -/

/-- Message `proto::master::ChunkInfo`. -/
structure ChunkInfo where
  chunk_id : String
  server_addresses : List String
  version : Nat
deriving Repr, DecidableEq

/-- The fields of `config::CommonConfig` the control plane reads. -/
structure CommonConfig where
  heartbeat_interval : Nat
  chunk_size : Nat
  max_allowed_chunks : Nat
  replication_factor : Nat
  use_authentication : Bool
deriving Repr, DecidableEq

/-- The fields of `config::MasterConfig` the heartbeat checker reads. -/
structure MasterConfig where
  cron_interval : Nat
  heartbeat_failure_threshold : Nat
deriving Repr, DecidableEq

/-- The four metadata maps of `MasterService`. -/
structure MasterState where
  file_chunks : List (String × List ChunkInfo)
  chunk_servers : List (String × List ChunkInfo)
  last_heartbeat_time : List (String × Nat)
  chunk_map : List (String × ChunkInfo)
deriving Repr, DecidableEq

def MasterState.init : MasterState := ⟨[], [], [], []⟩

/-! ### Master RPC handlers (`src/master_impl.rs`) -/

/-- Handler `register_chunk_server`: insert an empty load entry. -/
def registerChunkServer (s : MasterState) (addr : String) : MasterState :=
  { s with chunk_servers := ainsert s.chunk_servers addr [] }

/-- The metadata payload of `update_metadata`. -/
structure Metadata where
  file_chunks : List (String × List ChunkInfo)
  chunk_servers : List (String × List ChunkInfo)
  chunk_map : List (String × ChunkInfo)
deriving Repr, DecidableEq

/-- Handler `update_metadata`: replace the three metadata maps wholesale. -/
def updateMetadata (s : MasterState) (m : Metadata) : MasterState :=
  { s with
    file_chunks := m.file_chunks
    chunk_servers := m.chunk_servers
    chunk_map := m.chunk_map }

/-- The chunk-list reconstruction inside `heartbeat`: resolve each reported
chunk id against `chunk_map`; ids not found there are logged and skipped. -/
def resolveChunks (chunk_map : List (String × ChunkInfo)) (chunks : List String) :
    List ChunkInfo :=
  chunks.filterMap (fun chunk_id => alookup chunk_map chunk_id)

structure HeartbeatReply where
  message : String
deriving Repr, DecidableEq

/-- Handler `heartbeat`: stamp `last_heartbeat_time[addr] = now` and rebuild the
server's load entry from the reported chunk ids.  The handler has no
rejection path (the pre-epoch clock error is not representable here). -/
def heartbeat (s : MasterState) (chunkserver_address : String) (chunks : List String)
    (now : Nat) : Except ErrCode (MasterState × HeartbeatReply) :=
  .ok
    ({ s with
        last_heartbeat_time := ainsert s.last_heartbeat_time chunkserver_address now
        chunk_servers :=
          ainsert s.chunk_servers chunkserver_address (resolveChunks s.chunk_map chunks) },
     ⟨"[Heartbeat] HeartbeatRequest from " ++ chunkserver_address ++ " processed successfully."⟩)

/-- The collision-avoidance loop of `assign_chunks`: starting from the plain
file name, append `-1`, `-2`, … while the candidate is a `file_chunks` key.
The Rust loop terminates because the map is finite; `fc.length + 1` fuel is
enough candidates to find a free one when the keys are distinct. -/
def freshNameGo (fc : List (String × List ChunkInfo)) (base : String) :
    Nat → String → Nat → String
  | 0, cur, _ => cur
  | fuel + 1, cur, suffix =>
    if containsKey fc cur then
      freshNameGo fc base fuel (base ++ "-" ++ Nat.repr suffix) (suffix + 1)
    else cur

def freshName (fc : List (String × List ChunkInfo)) (base : String) : String :=
  freshNameGo fc base (fc.length + 1) base 1

/-- Strict order on `(load, addr)` pairs (Rust `Ord` on `(usize, String)`). -/
def pairLt (a b : Nat × String) : Bool :=
  Nat.blt a.1 b.1 || (Nat.beq a.1 b.1 && strLtB a.2 b.2)

def heapMin (x : Nat × String) (xs : List (Nat × String)) : Nat × String :=
  xs.foldl (fun acc p => if pairLt p acc then p else acc) x

/-- Model of `BinaryHeap<Reverse<(usize, String)>>::pop`: remove and return the
smallest `(load, addr)` pair.  The heaps built below never hold duplicate
pairs (each address occurs with at most two distinct loads). -/
def heapPop (h : List (Nat × String)) : Option ((Nat × String) × List (Nat × String)) :=
  match h with
  | [] => none
  | x :: xs =>
    let m := heapMin x xs
    some (m, (x :: xs).erase m)

/-- The per-chunk server-selection loop of `assign_chunks` (lines 215-226):
pop the least-loaded server; if it was already selected, `break`; otherwise
select it and push it back with load + 1.  When `pop` yields `none` the Rust
loop spins forever; that branch is unreachable from a nonempty heap (each
iteration that does not `break` pops one entry and pushes one back).  The
loop runs at most `replication_factor` selecting iterations plus one breaking
iteration, so `replication_factor + 1` fuel is exact. -/
def selectServers (rf : Nat) : Nat → List (Nat × String) → List String → List String
  | 0, _, sel => sel
  | fuel + 1, server_queue, sel =>
    if sel.length < rf then
      match heapPop server_queue with
      | some ((load, addr), rest) =>
        if sel.contains addr then sel
        else selectServers rf fuel (rest ++ [(load + 1, addr)]) (sel ++ [addr])
      | none => selectServers rf fuel server_queue sel
    else sel

/-- The available-server filter of `assign_chunks` (lines 185-190): servers
whose current load is below `max_allowed_chunks` (a snapshot; it is not
updated while the chunk loop runs). -/
def availServers (cfg : CommonConfig) (cs : List (String × List ChunkInfo)) :
    List (String × List ChunkInfo) :=
  cs.filter (fun p => decide (p.2.length < cfg.max_allowed_chunks))

structure AssignAcc where
  file_chunks : List (String × List ChunkInfo)
  chunk_servers : List (String × List ChunkInfo)
  chunk_map : List (String × ChunkInfo)
  assigned : List ChunkInfo
deriving Repr, DecidableEq

/-- One iteration of the `for chunk_index in 0..num_chunks` loop of
`assign_chunks`.  Note two facts taken verbatim from the source: the priority
queue is rebuilt each iteration from the unchanged `avail_chunk_servers`
snapshot, and the `file_chunks` entry is keyed by the ORIGINAL `file_name`
while `entry(..).and_modify(|vec| { vec.clear(); vec.push(..) }).or_insert(..)`
leaves exactly the one current chunk in the list either way, which is an
insert-or-replace with the singleton. -/
def assignChunkStep (cfg : CommonConfig) (avail : List (String × List ChunkInfo))
    (file_name updated_file_name : String) (acc : AssignAcc) (chunk_index : Nat) : AssignAcc :=
  let server_queue := avail.map (fun p => (p.2.length, p.1))
  let selected_servers :=
    selectServers cfg.replication_factor (cfg.replication_factor + 1) server_queue []
  let chunk_id := updated_file_name ++ "_chunk_" ++ Nat.repr chunk_index
  let chunk_info : ChunkInfo := ⟨chunk_id, selected_servers, 0⟩
  { file_chunks := ainsert acc.file_chunks file_name [chunk_info]
    chunk_servers :=
      selected_servers.foldl
        (fun cs server => amodify cs server (fun chunks => chunks ++ [chunk_info]))
        acc.chunk_servers
    chunk_map := ainsert acc.chunk_map chunk_id chunk_info
    assigned := acc.assigned ++ [chunk_info] }

/-- The per-chunk selection of one `assign_chunks` call: the heap is rebuilt
each iteration from the same `avail` snapshot, so every chunk of the call
gets this same list. -/
def assignSelected (cfg : CommonConfig) (avail : List (String × List ChunkInfo)) :
    List String :=
  selectServers cfg.replication_factor (cfg.replication_factor + 1)
    (avail.map (fun p => (p.2.length, p.1))) []

structure AssignReply where
  file_name : String
  chunk_info_list : List ChunkInfo
deriving Repr, DecidableEq

/-- Handler `assign_chunks` (lines 160-272).  `num_chunks` is
`(file_size + chunk_size - 1) / chunk_size`; `chunk_size = 0` would panic in
Rust and is excluded by every configuration considered here. -/
def assignChunks (cfg : CommonConfig) (s : MasterState) (file_name : String)
    (file_size : Nat) : Except ErrCode (MasterState × AssignReply) :=
  let updated_file_name := freshName s.file_chunks file_name
  let avail_chunk_servers := availServers cfg s.chunk_servers
  if avail_chunk_servers.isEmpty then .error .internal
  else
    let num_chunks := (file_size + cfg.chunk_size - 1) / cfg.chunk_size
    let r :=
      (List.range num_chunks).foldl
        (assignChunkStep cfg avail_chunk_servers file_name updated_file_name)
        ⟨s.file_chunks, s.chunk_servers, s.chunk_map, []⟩
    .ok
      ({ s with file_chunks := r.file_chunks, chunk_servers := r.chunk_servers,
                chunk_map := r.chunk_map },
       ⟨updated_file_name, r.assigned⟩)

structure DeleteReply where
  success : Bool
  message : String
deriving Repr, DecidableEq

/-- One server update inside `delete_file`: drop the chunk from the server's
load entry (`retain`) and remove the entry entirely when it becomes empty;
no-op when the server has no entry (`if let Some(server_chunks) = get_mut`). -/
def deleteChunkServerStep (chunk_info : ChunkInfo) (cs : List (String × List ChunkInfo))
    (server : String) : List (String × List ChunkInfo) :=
  match alookup cs server with
  | none => cs
  | some server_chunks =>
    let remaining := server_chunks.filter (fun c => c.chunk_id != chunk_info.chunk_id)
    if remaining.isEmpty then aremove cs server else ainsert cs server remaining

/-- The inner loop of `delete_file`: apply the step to every address recorded
in the chunk's `server_addresses`. -/
def deleteChunkFromServers (cs : List (String × List ChunkInfo)) (chunk_info : ChunkInfo) :
    List (String × List ChunkInfo) :=
  chunk_info.server_addresses.foldl (deleteChunkServerStep chunk_info) cs

/-- Handler `delete_file` (lines 280-328). -/
def deleteFile (s : MasterState) (file_name : String) : MasterState × DeleteReply :=
  match alookup s.file_chunks file_name with
  | some chunks =>
    let r :=
      chunks.foldl
        (fun acc chunk_info =>
          (deleteChunkFromServers acc.1 chunk_info, aremove acc.2 chunk_info.chunk_id))
        (s.chunk_servers, s.chunk_map)
    ({ s with
        file_chunks := aremove s.file_chunks file_name
        chunk_servers := r.1
        chunk_map := r.2 },
     ⟨true, "File " ++ file_name ++ " deleted successfully."⟩)
  | none => (s, ⟨false, "File " ++ file_name ++ " not found."⟩)

/-! ### The heartbeat-checker loop (`src/master_service.rs`, lines 215-493) -/

/-- Lines 278-303: the surviving sources for a lost chunk — from the
`file_chunks` entry of the file name derived from the chunk id, the addresses
of the entries with the same chunk id, minus the failed server. -/
def survivingSources (fc : List (String × List ChunkInfo)) (file_name : String)
    (chunk_info : ChunkInfo) (failed_server : String) : List String :=
  (((alookup fc file_name).getD []).filterMap
    (fun chunk =>
      if chunk.chunk_id == chunk_info.chunk_id then
        some (chunk.server_addresses.filter (fun addr => addr != failed_server))
      else none)).flatten

/-- Lines 318-334: `existing_replicas` — the number of the file's recorded
chunk entries that have at least one address different from the failed
server (note: entries of the whole file, not replicas of one chunk). -/
def existingReplicas (fc : List (String × List ChunkInfo)) (file_name : String)
    (failed_server : String) : Nat :=
  ((alookup fc file_name).map
    (fun chunks =>
      (chunks.filter (fun chunk => chunk.server_addresses.any (fun addr => addr != failed_server))).length)).getD 0

/-- Lines 346-356: servers available as re-replication targets — load below
`max_allowed_chunks` and not already holding the chunk. -/
def availForRepair (max_allowed_chunks : Nat) (cs : List (String × List ChunkInfo))
    (chunk_info : ChunkInfo) : List (String × List ChunkInfo) :=
  cs.filter
    (fun p =>
      decide (p.2.length < max_allowed_chunks) &&
      !(p.2.any (fun c => c.chunk_id == chunk_info.chunk_id)))

/-- The target-selection loop of the checker (lines 368-379).  Unlike the one
in `assign_chunks`, a popped server that is already selected is discarded and
the loop continues, and an empty heap breaks.  Every address enters the heap
at most twice, so `2 * |heap| + 1` fuel covers every pop. -/
def selectServersChecker (needed : Nat) :
    Nat → List (Nat × String) → List String → List String
  | 0, _, sel => sel
  | fuel + 1, server_queue, sel =>
    if sel.length < needed then
      match heapPop server_queue with
      | some ((load, addr), rest) =>
        if sel.contains addr then selectServersChecker needed fuel rest sel
        else selectServersChecker needed fuel (rest ++ [(load + 1, addr)]) (sel ++ [addr])
      | none => sel
    else sel

/-- The selection made by the checker for one lost chunk, from the current
state (factored out of `repairChunk` for the theorems). -/
def repairSelected (cfg : CommonConfig) (failed_server : String) (chunk_info : ChunkInfo)
    (s : MasterState) : List String :=
  let available_servers := availForRepair cfg.max_allowed_chunks s.chunk_servers chunk_info
  let server_queue := available_servers.map (fun p => (p.2.length, p.1))
  selectServersChecker
    (cfg.replication_factor -
      existingReplicas s.file_chunks (fileNamePart chunk_info.chunk_id) failed_server)
    (2 * server_queue.length + 1) server_queue []

/-- Update the FIRST entry with the given chunk id
(`chunk_list.iter_mut().find(..)`, lines 473-479): replace its addresses with
the selected servers and add one to its version. -/
def bumpFirst (l : List ChunkInfo) (chunk_id : String) (selected : List String) :
    List ChunkInfo :=
  match l with
  | [] => []
  | c :: rest =>
    if c.chunk_id == chunk_id then
      { c with server_addresses := selected, version := c.version + 1 } :: rest
    else c :: bumpFirst rest chunk_id selected

/-- Lines 270-482: handling of one lost chunk of a failed server.  Skips when
there is no surviving source, when `needed_replicas` is zero, or when no
target was selected; otherwise records
`ChunkInfo { chunk_id, server_addresses: selected, version: failed copy + 1 }`
in the selected servers' load entries and in `chunk_map`, and bumps the
matching `file_chunks` entries in place.  The `TransferChunk` RPCs have no
effect on master state (failures are logged and the metadata update happens
regardless).  `replication_factor - existing` is `usize` arithmetic in Rust
and would panic (debug) or wrap (release) when `existing` exceeds the factor;
here it truncates at zero — the divergence is analysed through
`existingReplicas` in the claim C10 theorems, and no other development below
reaches that situation. -/
def repairChunk (cfg : CommonConfig) (failed_server : String) (chunk_info : ChunkInfo)
    (s : MasterState) : MasterState :=
  let file_name := fileNamePart chunk_info.chunk_id
  let source_servers := survivingSources s.file_chunks file_name chunk_info failed_server
  if source_servers.isEmpty then s
  else
    let existing := existingReplicas s.file_chunks file_name failed_server
    let needed_replicas := cfg.replication_factor - existing
    if needed_replicas == 0 then s
    else
      let selected_servers := repairSelected cfg failed_server chunk_info s
      if selected_servers.isEmpty then s
      else
        let new_chunk_info : ChunkInfo :=
          ⟨chunk_info.chunk_id, selected_servers, chunk_info.version + 1⟩
        { s with
            chunk_servers :=
              selected_servers.foldl
                (fun cs server => amodify cs server (fun chunks => chunks ++ [new_chunk_info]))
                s.chunk_servers
            chunk_map := ainsert s.chunk_map chunk_info.chunk_id new_chunk_info
            file_chunks :=
              s.file_chunks.map
                (fun p => (p.1, bumpFirst p.2 chunk_info.chunk_id selected_servers)) }

/-- Lines 256-263 and the chunk loop: remove the failed server's load entry
and repair each chunk it held, in order. -/
def processFailedServer (cfg : CommonConfig) (s : MasterState) (failed_server : String) :
    MasterState :=
  let chunks_to_reassign := (alookup s.chunk_servers failed_server).getD []
  let s1 := { s with chunk_servers := aremove s.chunk_servers failed_server }
  chunks_to_reassign.foldl (fun st chunk_info => repairChunk cfg failed_server chunk_info st) s1

/-- Lines 238-247: the servers whose last heartbeat is older than
`heartbeat_failure_threshold * heartbeat_interval`.  (`now - last_time` is
`u64` arithmetic; a future-dated heartbeat would panic in a debug build and
here truncates to 0, i.e. never counts as failed.) -/
def failedServersOf (mcfg : MasterConfig) (cfg : CommonConfig)
    (lh : List (String × Nat)) (now : Nat) : List String :=
  (lh.filter
    (fun p => decide (now - p.2 > mcfg.heartbeat_failure_threshold * cfg.heartbeat_interval))).map
    Prod.fst

/-- One tick of the heartbeat-checker loop (lines 230-491): detect failed
servers, re-replicate their chunks, then drop them from
`last_heartbeat_time`. -/
def checkerPass (mcfg : MasterConfig) (cfg : CommonConfig) (s : MasterState) (now : Nat) :
    MasterState :=
  let failed_servers := failedServersOf mcfg cfg s.last_heartbeat_time now
  if failed_servers.isEmpty then s
  else
    let s2 := failed_servers.foldl (processFailedServer cfg) s
    { s2 with
        last_heartbeat_time :=
          failed_servers.foldl (fun lh f => aremove lh f) s2.last_heartbeat_time }

/-! ### Chunkserver (`src/chunkserver_impl.rs`, `src/chunkserver_service.rs`) -/

/-- Chunkserver-side state: the held-set, the OTP table and the blob store
(blob name ↦ bytes). -/
structure ChunkState where
  server_chunks : List String
  otp_store : List (String × Nat)
  disk : List (String × List Nat)
deriving Repr, DecidableEq

/-- Method `ChunkService::validate_otp` (`chunkserver_service.rs`, lines 125-144). -/
def validateOtp (cfg : CommonConfig) (st : ChunkState) (otp : String) (now : Nat) :
    Except ErrCode Unit :=
  if !cfg.use_authentication then .ok ()
  else
    match alookup st.otp_store otp with
    | some expiration_time => if expiration_time > now then .ok () else .error .unauthenticated
    | none => .error .unauthenticated

/-- The blob name `<fileName>_chunk_<chunkId>` used in the chunkserver's file
paths (the `<sanitizedAddress>/<dataRoot>/` prefix is common to all blobs of
one server and elided). -/
def blobName (file_name : String) (chunk_id : Nat) : String :=
  file_name ++ "_chunk_" ++ Nat.repr chunk_id

/-- Handler `read` (`chunkserver_impl.rs`, lines 180-208): open the blob — mapping ANY
open failure, including a missing blob, to `Status::internal` — and return up
to `chunk_size` bytes.  The handler destructures only `file_name` and
`chunk_id` from the request; the `otp` and `is_internal` fields it carries
are never consulted (`validate_otp` has no caller on this path). -/
def csRead (cfg : CommonConfig) (st : ChunkState) (file_name : String) (chunk_id : Nat)
    (otp : String) (is_internal : Bool) : Except ErrCode (List Nat) :=
  match alookup st.disk (blobName file_name chunk_id) with
  | none => .error .internal
  | some bytes => .ok (bytes.take cfg.chunk_size)

/-! ### Verification scaffolding -/

/-- The state of a successful `assign_chunks` call (used to chain concrete
operation traces; every trace below only applies it to successful calls). -/
def stateOf (r : Except ErrCode (MasterState × AssignReply)) : MasterState :=
  match r with
  | .ok p => p.1
  | .error _ => MasterState.init

/-- The state after a heartbeat (the handler never fails). -/
def stateOfHb (r : Except ErrCode (MasterState × HeartbeatReply)) : MasterState :=
  match r with
  | .ok p => p.1
  | .error _ => MasterState.init

/-- Relation stating that `cs2` refines `cs1` by shrinking: every load entry of `cs2` is a subset of
the corresponding entry of `cs1`.  `delete_file` only filters load lists and
drops empty entries, so each of its steps shrinks the map; properties of the
form "this server's entry no longer mentions that chunk id" are preserved. -/
def Shrinks (cs1 cs2 : List (String × List ChunkInfo)) : Prop :=
  ∀ a l, alookup cs2 a = some l → ∃ l0, alookup cs1 a = some l0 ∧ l ⊆ l0

/-- Server `a`'s load entry (if any) has no chunk with the given id. -/
def NoChunkId (cs : List (String × List ChunkInfo)) (a : String) (chunk_id : String) : Prop :=
  ∀ l, alookup cs a = some l → ∀ c ∈ l, c.chunk_id ≠ chunk_id

/-! ### Concrete configurations and operation traces used by the claim theorems -/

/-- Configuration with `chunkSize = 4`, `maxAllowedChunks = 100`, `replicationFactor = 2`,
`heartbeatInterval = 10`, authentication off (scenario S1 of the spec). -/
def cfgRF2 : CommonConfig := ⟨10, 4, 100, 2, false⟩

/-- As `cfgRF2` but `replicationFactor = 3`. -/
def cfgRF3 : CommonConfig := ⟨10, 4, 100, 3, false⟩

/-- Checker configuration, `heartbeatFailureThreshold = 5`: with `heartbeatInterval = 10` a server
is failed when its last heartbeat is more than 50 seconds old. -/
def mcfgStd : MasterConfig := ⟨30, 5⟩

/-- Two empty chunkservers `A`, `B` (scenario S1). -/
def twoServersAB : MasterState := registerChunkServer (registerChunkServer .init "A") "B"

/-- Three empty chunkservers `A`, `B`, `C`. -/
def threeServersABC : MasterState := registerChunkServer twoServersAB "C"

/- C1 / C5: `AssignChunks("f.txt", 9)` with `chunkSize = 4` on two empty
servers, then the same call again on the resulting state. -/

def c1Call : Except ErrCode (MasterState × AssignReply) :=
  assignChunks cfgRF2 twoServersAB "f.txt" 9

def c5Call : Except ErrCode (MasterState × AssignReply) :=
  assignChunks cfgRF2 (stateOf c1Call) "f.txt" 9

/- C2: load servers `B`, `C` with two single-chunk files while `A` is not yet
registered, then register `A` (load 0) and assign a fresh file: the selection
loop pops `(0, A)`, selects it, reinserts `(1, A)`, pops `(1, A)` again and
breaks, returning one server although three are available. -/

def c2State : MasterState :=
  registerChunkServer
    (stateOf (assignChunks cfgRF2
      (stateOf (assignChunks cfgRF2 (registerChunkServer (registerChunkServer .init "B") "C")
        "p" 4)) "q" 4)) "A"

def c2Call : Except ErrCode (MasterState × AssignReply) := assignChunks cfgRF2 c2State "x" 4

/- C3: `replicationFactor = 3`, five empty servers, one single-chunk file on
`{A, B, C}`; `C` heartbeats at time 0 and the checker runs at time 100. -/

def c3Registered : MasterState :=
  registerChunkServer (registerChunkServer threeServersABC "D") "E"

def c3Assigned : MasterState := stateOf (assignChunks cfgRF3 c3Registered "g" 4)

def c3BeforePass : MasterState := stateOfHb (heartbeat c3Assigned "C" ["g_chunk_0"] 0)

def c3AfterPass : MasterState := checkerPass mcfgStd cfgRF3 c3BeforePass 100

/- C4, first trace: one single-chunk file on `{A, B}`; both servers heartbeat
at time 0 and the checker runs at time 100, so the pass processes `A` (repair
to `C`, version 1) and then `B`, whose stale copy still carries version 0, so
the second repair writes version 0 + 1 = 1 over the ChunkMap value 1. -/

def c4FourServers : MasterState := registerChunkServer threeServersABC "D"

def c4Assigned : MasterState := stateOf (assignChunks cfgRF2 c4FourServers "g" 4)

def c4BothStale : MasterState :=
  stateOfHb (heartbeat (stateOfHb (heartbeat c4Assigned "A" ["g_chunk_0"] 0))
    "B" ["g_chunk_0"] 0)

def c4AfterA : MasterState := processFailedServer cfgRF2 c4BothStale "A"

def c4AfterB : MasterState := processFailedServer cfgRF2 c4AfterA "B"

/- C4, second trace: a decrease of a continuously-present ChunkMap entry.
`f` has three chunks but `file_chunks` records only `f_chunk_2`; repair bumps
`f_chunk_2` to version 1; a colliding assign re-records `f` as
`[f-1_chunk_0]`; `delete_file "f"` therefore removes only `f-1_chunk_0` and
leaves `f_chunk_2` at version 1 in `chunk_map`; re-assigning `f` (now a free
name) overwrites `f_chunk_2` with version 0. -/

def c4wAssigned : MasterState := stateOf (assignChunks cfgRF2 threeServersABC "f" 9)

def c4wStale : MasterState :=
  stateOfHb (heartbeat
    (stateOfHb (heartbeat c4wAssigned "A" ["f_chunk_0", "f_chunk_1", "f_chunk_2"] 100))
    "B" ["f_chunk_0", "f_chunk_1", "f_chunk_2"] 0)

def c4wRepaired : MasterState := checkerPass mcfgStd cfgRF2 c4wStale 100

def c4wCollided : MasterState := stateOf (assignChunks cfgRF2 c4wRepaired "f" 4)

def c4wDeleted : MasterState := (deleteFile c4wCollided "f").1

def c4wFinal : MasterState := stateOf (assignChunks cfgRF2 c4wDeleted "f" 9)

/- C7: one single-chunk file on `{A, B}` over three servers; `B` fails and the
chunk is repaired to `C`; `A` still holds the blob and heartbeats it back into
its load entry; `delete_file "g"` then succeeds but only cleans the servers
recorded in the chunk's `server_addresses` (`C`), leaving `g_chunk_0` in
`A`'s load entry. -/

def c7Assigned : MasterState := stateOf (assignChunks cfgRF2 threeServersABC "g" 4)

def c7Stale : MasterState :=
  stateOfHb (heartbeat (stateOfHb (heartbeat c7Assigned "A" ["g_chunk_0"] 100))
    "B" ["g_chunk_0"] 0)

def c7Repaired : MasterState := checkerPass mcfgStd cfgRF2 c7Stale 100

def c7Refreshed : MasterState := stateOfHb (heartbeat c7Repaired "A" ["g_chunk_0"] 101)

def c7Deleted : MasterState × DeleteReply := deleteFile c7Refreshed "g"

/- C10: a metadata payload (installable through the `update_metadata` handler)
recording a three-chunk file replicated on `{A, B}` with
`replicationFactor = 2`. -/

def c10Chunk (i : Nat) : ChunkInfo := ⟨"f_chunk_" ++ Nat.repr i, ["A", "B"], 0⟩

def c10Meta : Metadata :=
  ⟨[("f", [c10Chunk 0, c10Chunk 1, c10Chunk 2])],
   [("A", [c10Chunk 0, c10Chunk 1, c10Chunk 2]), ("B", [c10Chunk 0, c10Chunk 1, c10Chunk 2])],
   [("f_chunk_0", c10Chunk 0), ("f_chunk_1", c10Chunk 1), ("f_chunk_2", c10Chunk 2)]⟩

def c10State : MasterState := updateMetadata .init c10Meta

/- C8 / C9: a chunkserver with authentication enabled, an empty OTP table and
one two-byte blob `data_chunk_0`. -/

def cfgAuth : CommonConfig := ⟨10, 4, 100, 2, true⟩

def c8State : ChunkState := ⟨["data_chunk_0"], [], [("data_chunk_0", [72, 73])]⟩

def c9State : ChunkState := ⟨[], [], []⟩

deriving instance DecidableEq for Except

/-! ### Lemmas about the association-list operations -/

theorem alookup_nil {α : Type} (k : String) : alookup ([] : List (String × α)) k = none := rfl

theorem alookup_cons {α : Type} (p : String × α) (t : List (String × α)) (k : String) :
    alookup (p :: t) k = if p.1 == k then some p.2 else alookup t k := by
  by_cases h : p.1 == k <;> simp [alookup, List.find?, h]

theorem alookup_of_containsKey_eq_false {α : Type} {m : List (String × α)} {k : String}
    (h : containsKey m k = false) : alookup m k = none := by
  induction m with
  | nil => rfl
  | cons p t ih =>
    simp only [containsKey, List.any_cons, Bool.or_eq_false_iff] at h
    rw [alookup_cons, if_neg (by simp [h.1]), ih (by simp [containsKey, h.2])]

theorem containsKey_of_alookup_eq_some {α : Type} {m : List (String × α)} {k : String} {v : α}
    (h : alookup m k = some v) : containsKey m k = true := by
  by_contra hc
  rw [alookup_of_containsKey_eq_false (Bool.eq_false_iff.mpr hc)] at h
  exact Option.noConfusion h

theorem alookup_isSome_of_containsKey {α : Type} {m : List (String × α)} {k : String}
    (h : containsKey m k = true) : ∃ v, alookup m k = some v := by
  induction m with
  | nil => simp [containsKey] at h
  | cons p t ih =>
    by_cases hp : p.1 == k
    · exact ⟨p.2, by rw [alookup_cons, if_pos hp]⟩
    · simp only [containsKey, List.any_cons, hp, Bool.false_or] at h
      obtain ⟨v, hv⟩ := ih h
      exact ⟨v, by rw [alookup_cons, if_neg hp, hv]⟩

theorem alookup_append {α : Type} (m l : List (String × α)) (k : String) :
    alookup (m ++ l) k = ((alookup m k).map some).getD (alookup l k) := by
  induction m with
  | nil => rfl
  | cons p t ih =>
    rw [List.cons_append, alookup_cons, alookup_cons]
    by_cases hp : p.1 == k
    · simp [hp]
    · simp only [hp, if_false]; exact ih

theorem alookup_map_replace_self {α : Type} (m : List (String × α)) (k : String) (v : α) :
    alookup (m.map (fun p => if p.1 == k then (k, v) else p)) k =
      (alookup m k).map (fun _ => v) := by
  induction m with
  | nil => rfl
  | cons p t ih =>
    by_cases hk : p.1 = k
    · simp [List.map_cons, alookup_cons, hk]
    · simp only [List.map_cons, alookup_cons, if_neg (by simpa using hk),
        if_neg (show ¬((p.1 == k) = true) from by simpa using hk)]
      simpa using ih

theorem alookup_map_replace_ne {α : Type} (m : List (String × α)) (k k' : String) (v : α)
    (h : k' ≠ k) :
    alookup (m.map (fun p => if p.1 == k then (k, v) else p)) k' = alookup m k' := by
  induction m with
  | nil => rfl
  | cons p t ih =>
    by_cases hk : p.1 = k
    · simp only [List.map_cons, if_pos (show (p.1 == k) = true from by simpa using hk),
        alookup_cons]
      rw [if_neg (show ¬((k == k') = true) from by simpa using Ne.symm h),
        if_neg (show ¬((p.1 == k') = true) from by simp [hk, Ne.symm h])]
      simpa using ih
    · simp only [List.map_cons, if_neg (show ¬((p.1 == k) = true) from by simpa using hk),
        alookup_cons]
      by_cases hp : p.1 = k'
      · simp [hp]
      · rw [if_neg (by simpa using hp), if_neg (by simpa using hp)]
        simpa using ih

theorem alookup_ainsert_self {α : Type} (m : List (String × α)) (k : String) (v : α) :
    alookup (ainsert m k v) k = some v := by
  unfold ainsert
  by_cases hc : containsKey m k
  · obtain ⟨w, hw⟩ := alookup_isSome_of_containsKey hc
    rw [if_pos hc, alookup_map_replace_self, hw]
    rfl
  · have hnone := alookup_of_containsKey_eq_false (Bool.eq_false_iff.mpr hc)
    rw [if_neg hc, alookup_append, hnone]
    simp [alookup_cons]

theorem alookup_ainsert_ne {α : Type} (m : List (String × α)) (k k' : String) (v : α)
    (h : k' ≠ k) : alookup (ainsert m k v) k' = alookup m k' := by
  unfold ainsert
  by_cases hc : containsKey m k
  · rw [if_pos hc, alookup_map_replace_ne _ _ _ _ h]
  · rw [if_neg hc, alookup_append]
    have : alookup [(k, v)] k' = none := by simp [alookup_cons, alookup_nil, Ne.symm h]
    rw [this]
    cases alookup m k' <;> rfl

theorem alookup_aremove_self {α : Type} (m : List (String × α)) (k : String) :
    alookup (aremove m k) k = none := by
  induction m with
  | nil => rfl
  | cons p t ih =>
    by_cases hk : p.1 = k
    · simpa [aremove, List.filter_cons, hk] using ih
    · simpa [aremove, List.filter_cons, hk, alookup_cons] using ih

theorem alookup_aremove_ne {α : Type} (m : List (String × α)) (k k' : String) (h : k' ≠ k) :
    alookup (aremove m k) k' = alookup m k' := by
  induction m with
  | nil => rfl
  | cons p t ih =>
    by_cases hk : p.1 = k
    · simp only [aremove, List.filter_cons] at ih ⊢
      rw [if_neg (show ¬((p.1 != k) = true) from by simp [hk])]
      rw [ih, alookup_cons, if_neg (show ¬((p.1 == k') = true) from by simp [hk, Ne.symm h])]
    · simp only [aremove, List.filter_cons] at ih ⊢
      rw [if_pos (show (p.1 != k) = true from by simp [hk])]
      rw [alookup_cons, alookup_cons, ih]

theorem alookup_mem {α : Type} {m : List (String × α)} {k : String} {v : α}
    (h : alookup m k = some v) : (k, v) ∈ m := by
  unfold alookup at h
  obtain ⟨p, hfind, hsnd⟩ : ∃ p, m.find? (fun p => p.1 == k) = some p ∧ p.2 = v := by
    cases hf : m.find? (fun p => p.1 == k) with
    | none => rw [hf] at h; exact Option.noConfusion h
    | some p => rw [hf] at h; exact ⟨p, rfl, by simpa using h⟩
  have hk : p.1 = k := by simpa using List.find?_some hfind
  have := List.mem_of_find?_eq_some hfind
  rwa [show (k, v) = p from by rw [← hk, ← hsnd]]

theorem alookup_eq_of_mem_nodup {α : Type} {m : List (String × α)} {k : String} {v : α}
    (hmem : (k, v) ∈ m) (hnd : (m.map Prod.fst).Nodup) : alookup m k = some v := by
  induction m with
  | nil => simp at hmem
  | cons p t ih =>
    rcases List.mem_cons.mp hmem with heq | htail
    · rw [← heq, alookup_cons, if_pos (by simp)]
    · have hnd2 : (∀ x, (p.1, x) ∉ t) ∧ (t.map Prod.fst).Nodup := by simpa using hnd
      have hne : ¬(p.1 = k) := fun hh => hnd2.1 v (by rw [hh]; exact htail)
      rw [alookup_cons, if_neg (by simpa using hne)]
      exact ih htail hnd2.2

/-! ### Lemmas about the heap and the selection loop of `assign_chunks` -/

theorem heapMin_mem (x : Nat × String) (xs : List (Nat × String)) : heapMin x xs ∈ x :: xs := by
  induction xs generalizing x with
  | nil => simp [heapMin]
  | cons p t ih =>
    have hstep : heapMin x (p :: t) = heapMin (if pairLt p x then p else x) t := by
      simp [heapMin]
    rw [hstep]
    rcases List.mem_cons.mp (ih (if pairLt p x then p else x)) with h | h
    · rw [h]
      by_cases hp : pairLt p x
      · simp [hp]
      · simp [hp]
    · exact List.mem_cons.mpr (Or.inr (List.mem_cons.mpr (Or.inr h)))

theorem heapPop_mem {h : List (Nat × String)} {m : Nat × String} {rest : List (Nat × String)}
    (hp : heapPop h = some (m, rest)) : m ∈ h := by
  cases h with
  | nil => exact Option.noConfusion hp
  | cons x xs =>
    have : heapMin x xs = m := congrArg (fun o => (o.map Prod.fst).getD (0, "")) hp
    exact this ▸ heapMin_mem x xs

theorem heapPop_rest_subset {h : List (Nat × String)} {m : Nat × String}
    {rest : List (Nat × String)} (hp : heapPop h = some (m, rest)) : rest ⊆ h := by
  cases h with
  | nil => exact Option.noConfusion hp
  | cons x xs =>
    have : (x :: xs).erase (heapMin x xs) = rest :=
      congrArg (fun o => (o.map Prod.snd).getD []) hp
    exact this ▸ List.erase_subset _ _

/-- One unfolding of the selection loop. -/
theorem selectServers_succ (rf n : Nat) (heap : List (Nat × String)) (sel : List String) :
    selectServers rf (n + 1) heap sel =
      if sel.length < rf then
        match heapPop heap with
        | some ((load, addr), rest) =>
          if sel.contains addr then sel
          else selectServers rf n (rest ++ [(load + 1, addr)]) (sel ++ [addr])
        | none => selectServers rf n heap sel
      else sel := rfl

theorem selectServers_eq_append (rf : Nat) :
    ∀ (fuel : Nat) (heap : List (Nat × String)) (sel : List String),
      ∃ t, selectServers rf fuel heap sel = sel ++ t := by
  intro fuel
  induction fuel with
  | zero => exact fun heap sel => ⟨[], (List.append_nil sel).symm⟩
  | succ n ih =>
    intro heap sel
    by_cases hlen : sel.length < rf
    · cases hpop : heapPop heap with
      | none =>
        obtain ⟨t, ht⟩ := ih heap sel
        refine ⟨t, ?_⟩
        rw [selectServers_succ, if_pos hlen, hpop]
        exact ht
      | some mr =>
        obtain ⟨⟨load, addr⟩, rest⟩ := mr
        cases hc : sel.contains addr with
        | true =>
          refine ⟨[], ?_⟩
          rw [selectServers_succ, if_pos hlen, hpop]
          dsimp only
          rw [if_pos hc, List.append_nil]
        | false =>
          obtain ⟨t, ht⟩ := ih (rest ++ [(load + 1, addr)]) (sel ++ [addr])
          refine ⟨addr :: t, ?_⟩
          rw [selectServers_succ, if_pos hlen, hpop]
          dsimp only
          rw [if_neg (by rw [hc]; exact Bool.false_ne_true), ht, List.append_assoc]
          rfl
    · exact ⟨[], by rw [selectServers_succ, if_neg hlen, List.append_nil]⟩

theorem selectServers_nodup (rf : Nat) :
    ∀ (fuel : Nat) (heap : List (Nat × String)) (sel : List String),
      sel.Nodup → (selectServers rf fuel heap sel).Nodup := by
  intro fuel
  induction fuel with
  | zero => exact fun heap sel h => h
  | succ n ih =>
    intro heap sel hsel
    by_cases hlen : sel.length < rf
    · cases hpop : heapPop heap with
      | none =>
        rw [selectServers_succ, if_pos hlen, hpop]
        exact ih heap sel hsel
      | some mr =>
        obtain ⟨⟨load, addr⟩, rest⟩ := mr
        cases hc : sel.contains addr with
        | true =>
          rw [selectServers_succ, if_pos hlen, hpop]
          dsimp only
          rw [if_pos hc]
          exact hsel
        | false =>
          rw [selectServers_succ, if_pos hlen, hpop]
          dsimp only
          rw [if_neg (by rw [hc]; exact Bool.false_ne_true)]
          refine ih _ _ ?_
          have hnm : addr ∉ sel := by simpa using hc
          simp [List.nodup_append, hsel, hnm]
    · rw [selectServers_succ, if_neg hlen]; exact hsel

theorem selectServers_mem_subset (rf : Nat) :
    ∀ (fuel : Nat) (heap : List (Nat × String)) (sel : List String) (x : String),
      x ∈ selectServers rf fuel heap sel → x ∈ sel ∨ x ∈ heap.map Prod.snd := by
  intro fuel
  induction fuel with
  | zero => exact fun heap sel x hx => Or.inl hx
  | succ n ih =>
    intro heap sel x hx
    by_cases hlen : sel.length < rf
    · cases hpop : heapPop heap with
      | none =>
        rw [selectServers_succ, if_pos hlen, hpop] at hx
        exact ih heap sel x hx
      | some mr =>
        obtain ⟨⟨load, addr⟩, rest⟩ := mr
        have haddr : addr ∈ heap.map Prod.snd :=
          List.mem_map.mpr ⟨(load, addr), heapPop_mem hpop, rfl⟩
        cases hc : sel.contains addr with
        | true =>
          rw [selectServers_succ, if_pos hlen, hpop] at hx
          dsimp only at hx
          rw [if_pos hc] at hx
          exact Or.inl hx
        | false =>
          rw [selectServers_succ, if_pos hlen, hpop] at hx
          dsimp only at hx
          rw [if_neg (by rw [hc]; exact Bool.false_ne_true)] at hx
          rcases ih _ _ x hx with h | h
          · rcases List.mem_append.mp h with h1 | h1
            · exact Or.inl h1
            · exact Or.inr ((List.mem_singleton.mp h1) ▸ haddr)
          · rw [List.map_append] at h
            rcases List.mem_append.mp h with h1 | h1
            · exact Or.inr (List.map_subset Prod.snd (heapPop_rest_subset hpop) h1)
            · exact Or.inr ((by simpa using h1 : x = addr) ▸ haddr)
    · rw [selectServers_succ, if_neg hlen] at hx
      exact Or.inl hx

theorem selectServers_length_le (rf : Nat) :
    ∀ (fuel : Nat) (heap : List (Nat × String)) (sel : List String),
      sel.length ≤ rf → (selectServers rf fuel heap sel).length ≤ rf := by
  intro fuel
  induction fuel with
  | zero => exact fun heap sel h => h
  | succ n ih =>
    intro heap sel hsel
    by_cases hlen : sel.length < rf
    · cases hpop : heapPop heap with
      | none =>
        rw [selectServers_succ, if_pos hlen, hpop]
        exact ih heap sel hsel
      | some mr =>
        obtain ⟨⟨load, addr⟩, rest⟩ := mr
        cases hc : sel.contains addr with
        | true =>
          rw [selectServers_succ, if_pos hlen, hpop]
          dsimp only
          rw [if_pos hc]
          exact hsel
        | false =>
          rw [selectServers_succ, if_pos hlen, hpop]
          dsimp only
          rw [if_neg (by rw [hc]; exact Bool.false_ne_true)]
          exact ih _ _ (by simpa using hlen)
    · rw [selectServers_succ, if_neg hlen]; exact hsel

theorem selectServers_ne_nil (rf : Nat) (fuel : Nat) (heap : List (Nat × String))
    (hrf : 1 ≤ rf) (hne : heap ≠ []) :
    selectServers rf (fuel + 1) heap [] ≠ [] := by
  obtain ⟨m, rest, hpop, hm, hrest⟩ :
      ∃ m rest, heapPop heap = some (m, rest) ∧ m ∈ heap ∧ rest = heap.erase m := by
    cases heap with
    | nil => exact absurd rfl hne
    | cons x xs => exact ⟨heapMin x xs, _, rfl, heapMin_mem x xs, rfl⟩
  obtain ⟨load, addr⟩ := m
  rw [selectServers_succ, if_pos (by simpa using hrf), hpop]
  dsimp only
  rw [if_neg (by simp)]
  obtain ⟨t, ht⟩ := selectServers_eq_append rf fuel (rest ++ [(load + 1, addr)]) [addr]
  rw [List.nil_append, ht]
  simp

theorem assign_fold_assigned_sel (cfg : CommonConfig) (avail : List (String × List ChunkInfo))
    (fn un : String) :
    ∀ (l : List Nat) (acc : AssignAcc),
      (∀ ci ∈ acc.assigned, ci.server_addresses = assignSelected cfg avail) →
      ∀ ci ∈ (l.foldl (assignChunkStep cfg avail fn un) acc).assigned,
        ci.server_addresses = assignSelected cfg avail := by
  intro l
  induction l with
  | nil => exact fun acc hacc => hacc
  | cons i t ih =>
    intro acc hacc
    rw [List.foldl_cons]
    refine ih _ ?_
    intro ci hci
    rcases List.mem_append.mp hci with h | h
    · exact hacc ci h
    · rw [List.mem_singleton.mp h]
      rfl

/-! ### Claim theorems -/

/-- C1: the claim says a successful `AssignChunks("f.txt", 9)` with
`chunkSize = 4` records the full ordered three-chunk sequence in
`FileChunks`.  The call does return the three chunks
`f.txt_chunk_0..2` in its response, but the `file_chunks` entry it records
holds only the LAST chunk (`entry(..).and_modify` clears the list on every
iteration), so the recorded entry is `[f.txt_chunk_2]`, not the sequence of
three — the code contradicts the claim (and its own doc comment). -/
theorem c1_file_chunks_records_only_last_chunk :
    c1Call = .ok (stateOf c1Call,
      ⟨"f.txt", [⟨"f.txt_chunk_0", ["A", "B"], 0⟩, ⟨"f.txt_chunk_1", ["A", "B"], 0⟩,
                 ⟨"f.txt_chunk_2", ["A", "B"], 0⟩]⟩) ∧
    alookup (stateOf c1Call).file_chunks "f.txt" =
      some [⟨"f.txt_chunk_2", ["A", "B"], 0⟩] ∧
    (some [(⟨"f.txt_chunk_2", ["A", "B"], 0⟩ : ChunkInfo)] ≠
      some [(⟨"f.txt_chunk_0", ["A", "B"], 0⟩ : ChunkInfo), ⟨"f.txt_chunk_1", ["A", "B"], 0⟩,
            ⟨"f.txt_chunk_2", ["A", "B"], 0⟩]) := by
  decide

/-- C5: the claim says a colliding `AssignChunks("f.txt", _)` records the new
chunks under the fresh key `f.txt-1`.  The call does compute and return
`f.txt-1` (the smallest free suffix) and names the chunks after it, but it
records them under the ORIGINAL key `f.txt` — overwriting the existing
file's entry — and `f.txt-1` never becomes a `file_chunks` key. -/
theorem c5_collision_records_under_original_key :
    c5Call = .ok (stateOf c5Call,
      ⟨"f.txt-1", [⟨"f.txt-1_chunk_0", ["A", "B"], 0⟩, ⟨"f.txt-1_chunk_1", ["A", "B"], 0⟩,
                   ⟨"f.txt-1_chunk_2", ["A", "B"], 0⟩]⟩) ∧
    containsKey (stateOf c5Call).file_chunks "f.txt-1" = false ∧
    alookup (stateOf c5Call).file_chunks "f.txt" =
      some [⟨"f.txt-1_chunk_2", ["A", "B"], 0⟩] := by
  decide

/-- C2 counterexample: a reachable state (two loaded servers `B`, `C` and a
freshly registered empty `A`) where `AssignChunks` succeeds with three
available servers and `replicationFactor = 2`, yet selects only ONE server:
after selecting `A` (load 0) the loop pops the reinserted `(1, A)` — still
the heap minimum — finds it already selected and breaks.  This refutes
`|serverAddresses| = min(replicationFactor, |availServers|)`. -/
theorem c2_selection_undershoots_counterexample :
    (availServers cfgRF2 c2State.chunk_servers).length = 3 ∧
    c2Call = .ok (stateOf c2Call, ⟨"x", [⟨"x_chunk_0", ["A"], 0⟩]⟩) ∧
    ([("A" : String)].length ≠ min cfgRF2.replication_factor 3) := by
  decide

/-- C3: the claim (and spec step 3b) says the checker selects
`replicationFactor − survivingCount` targets, counting surviving replicas of
the lost chunk.  The code instead counts the FILE's chunk entries that have
any address other than the failed server.  Here `g_chunk_0` lives on
`{A, B, C}` with `replicationFactor = 3`; when `C` fails the chunk has two
surviving replicas, so the claim prescribes one new target, but
`existing_replicas` evaluates to 1 (one file entry) and the checker selects
two targets `{D, E}`. -/
theorem c3_checker_target_count_diverges :
    alookup c3BeforePass.chunk_map "g_chunk_0" = some ⟨"g_chunk_0", ["A", "B", "C"], 0⟩ ∧
    ((["A", "B", "C"] : List String).filter (fun a => a != "C")).length = 2 ∧
    cfgRF3.replication_factor - 2 = 1 ∧
    existingReplicas c3BeforePass.file_chunks "g" "C" = 1 ∧
    alookup c3AfterPass.chunk_map "g_chunk_0" = some ⟨"g_chunk_0", ["D", "E"], 1⟩ ∧
    ([("D" : String), "E"].length ≠ 1) := by
  decide

/-- C4 counterexample, in two parts.  Part 1: with `g_chunk_0` on `{A, B}`
and both servers' last reported copies at version 0, one checker pass
processes `A` (repair to `C`, `chunk_map` version becomes 1) and then `B`,
whose stale copy still carries version 0 — the second repair event writes
version 0 + 1 = 1 over the authoritative `chunk_map` value 1 (not 1 + 1 = 2;
the `file_chunks` entry, bumped in place twice, reaches version 2).  Part 2:
a `chunk_map` entry whose version DECREASES while continuously present:
`f_chunk_2` is repaired to version 1, survives `deleteFile "f"` (which only
removes the currently listed `f-1_chunk_0`), and is then overwritten with
version 0 by a later `AssignChunks("f", 9)` that reuses the freed name. -/
theorem c4_version_bump_counterexample :
    (alookup c4BothStale.chunk_servers "B" = some [⟨"g_chunk_0", ["A", "B"], 0⟩] ∧
      alookup c4AfterA.chunk_map "g_chunk_0" = some ⟨"g_chunk_0", ["C"], 1⟩ ∧
      c4AfterB = processFailedServer cfgRF2 c4AfterA "B" ∧
      alookup c4AfterB.chunk_map "g_chunk_0" = some ⟨"g_chunk_0", ["D"], 1⟩ ∧
      alookup c4AfterB.file_chunks "g" = some [⟨"g_chunk_0", ["D"], 2⟩] ∧
      (checkerPass mcfgStd cfgRF2 c4BothStale 100).chunk_map = c4AfterB.chunk_map ∧
      (1 : Nat) ≠ 1 + 1) ∧
    (alookup c4wRepaired.chunk_map "f_chunk_2" = some ⟨"f_chunk_2", ["C"], 1⟩ ∧
      alookup c4wCollided.chunk_map "f_chunk_2" = some ⟨"f_chunk_2", ["C"], 1⟩ ∧
      (deleteFile c4wCollided "f").2.success = true ∧
      alookup c4wDeleted.chunk_map "f_chunk_2" = some ⟨"f_chunk_2", ["C"], 1⟩ ∧
      alookup c4wFinal.chunk_map "f_chunk_2" = some ⟨"f_chunk_2", ["C"], 0⟩ ∧
      ¬((1 : Nat) ≤ 0)) := by
  decide

/-- C6: `Heartbeat` is never rejected and is idempotent on the server's load
entry: for every master state and request the handler returns `Ok`, the
recorded entry is the reported ids resolved against `chunk_map` (ids absent
from `chunk_map` are skipped by `resolveChunks`), and processing the same
request again leaves the entry identical. -/
theorem c6_heartbeat_success_and_idempotent (s : MasterState) (addr : String)
    (chunks : List String) (now1 now2 : Nat) :
    ∃ s1 r1 s2 r2,
      heartbeat s addr chunks now1 = .ok (s1, r1) ∧
      alookup s1.chunk_servers addr = some (resolveChunks s.chunk_map chunks) ∧
      heartbeat s1 addr chunks now2 = .ok (s2, r2) ∧
      alookup s2.chunk_servers addr = alookup s1.chunk_servers addr := by
  refine ⟨_, _, _, _, rfl, alookup_ainsert_self _ _ _, rfl, ?_⟩
  rw [alookup_ainsert_self, alookup_ainsert_self]

/-- C8: the claim (and spec §4.1) says that with `useAuthentication` on, a
`Read` whose OTP is not valid on the server returns `Unauthenticated`.  The
`validate_otp` helper would indeed reject the unknown OTP, but the `read`
handler never calls it — it ignores the request's `otp` and `is_internal`
fields entirely and returns the blob contents. -/
theorem c8_read_ignores_otp_gate :
    validateOtp cfgAuth c8State "bogus" 50 = .error .unauthenticated ∧
    csRead cfgAuth c8State "data" 0 "bogus" false = .ok [72, 73] := by
  decide

/-- C9 counterexample: a `Read` for a blob that is not on the local store
fails with `Internal`, not `NotFound` — `read` maps every `File::open` error
to `Status::internal`. -/
theorem c9_read_missing_blob_counterexample :
    csRead cfgAuth c9State "data" 0 "" false = .error .internal ∧
    ErrCode.internal ≠ ErrCode.notFound := by
  decide

/-- C9 amended: a `Read` for a missing blob fails with the `Internal` error
class (the read path never produces `NotFound`). -/
theorem c9_read_missing_blob_is_internal (cfg : CommonConfig) (st : ChunkState)
    (file_name : String) (chunk_id : Nat) (otp : String) (is_internal : Bool)
    (h : alookup st.disk (blobName file_name chunk_id) = none) :
    csRead cfg st file_name chunk_id otp is_internal = .error .internal := by
  unfold csRead
  rw [h]

theorem c9_read_missing_blob_is_internal_witness :
    alookup c9State.disk (blobName "data" 0) = none ∧
    csRead cfgAuth c9State "data" 0 "" false = .error .internal :=
  ⟨by decide, c9_read_missing_blob_is_internal cfgAuth c9State "data" 0 "" false (by decide)⟩

/-- C10 counterexample: a master state reachable in one `update_metadata`
call records a three-chunk file on `{A, B}`; when `B` fails, chunk
`f_chunk_0` has a surviving source, yet `existing_replicas` evaluates to 3,
which exceeds `replicationFactor = 2` — exactly the edge case the claim
parenthesises, so `replication_factor - existing_replicas` underflows at
that step (a `usize` panic in a debug build). -/
theorem c10_existing_replicas_exceeds_factor :
    c10State = updateMetadata MasterState.init c10Meta ∧
    survivingSources c10State.file_chunks "f" (c10Chunk 0) "B" = ["A"] ∧
    existingReplicas c10State.file_chunks "f" "B" = 3 ∧
    ¬(existingReplicas c10State.file_chunks "f" "B" ≤ cfgRF2.replication_factor) := by
  decide

/-- C10 amended: the computed count is bounded by the number of the file's
recorded chunk entries, so in states where every `file_chunks` list has at
most one entry — which is all this master's own `assign_chunks` ever leaves
behind — the count is at most 1 and the subtraction cannot underflow when
`replicationFactor ≥ 1`. -/
theorem c10_existing_replicas_bounded (fc : List (String × List ChunkInfo))
    (file_name failed : String) (rf : Nat)
    (hshort : ∀ p ∈ fc, (Prod.snd p).length ≤ 1) (hrf : 1 ≤ rf) :
    existingReplicas fc file_name failed ≤ rf := by
  unfold existingReplicas
  cases hl : alookup fc file_name with
  | none => simp
  | some chunks =>
    have h1 : chunks.length ≤ 1 := hshort (file_name, chunks) (alookup_mem hl)
    have h2 := List.length_filter_le
      (fun chunk => chunk.server_addresses.any (fun addr => addr != failed)) chunks
    simpa using le_trans (le_trans h2 h1) hrf

theorem c10_existing_replicas_bounded_witness :
    (∀ p ∈ (stateOf c1Call).file_chunks, (Prod.snd p).length ≤ 1) ∧
    1 ≤ cfgRF2.replication_factor ∧
    existingReplicas (stateOf c1Call).file_chunks "f.txt" "A" ≤ cfgRF2.replication_factor :=
  ⟨by decide, by decide,
    c10_existing_replicas_bounded (stateOf c1Call).file_chunks "f.txt" "A"
      cfgRF2.replication_factor (by decide) (by decide)⟩

/-- C2 amended: a successful `AssignChunks` selects, for every chunk, a list
of pairwise-distinct servers all of whose pre-call loads were strictly below
`maxAllowedChunks`; the list is nonempty and has length at most
`min(replicationFactor, |availServers|)` — but not necessarily equal to it,
since the selection loop breaks as soon as the reinserted least-loaded server
is popped again; and the call fails with `Internal` exactly when no server
has load below `maxAllowedChunks`. -/
theorem c2_assign_selection_properties (cfg : CommonConfig) (s : MasterState)
    (file_name : String) (file_size : Nat)
    (hkeys : (s.chunk_servers.map Prod.fst).Nodup) (hrf : 1 ≤ cfg.replication_factor) :
    (assignChunks cfg s file_name file_size = .error .internal ↔
      availServers cfg s.chunk_servers = []) ∧
    (∀ s2 resp, assignChunks cfg s file_name file_size = .ok (s2, resp) →
      ∀ ci ∈ resp.chunk_info_list,
        ci.server_addresses.Nodup ∧
        1 ≤ ci.server_addresses.length ∧
        ci.server_addresses.length ≤
          min cfg.replication_factor (availServers cfg s.chunk_servers).length ∧
        ∀ a ∈ ci.server_addresses,
          ∃ chunks, alookup s.chunk_servers a = some chunks ∧
            chunks.length < cfg.max_allowed_chunks) := by
  constructor
  · constructor
    · intro herr
      by_cases hne : availServers cfg s.chunk_servers = []
      · exact hne
      · exfalso
        have hempty : (availServers cfg s.chunk_servers).isEmpty = false := by
          cases hh : (availServers cfg s.chunk_servers).isEmpty
          · rfl
          · exact absurd (List.isEmpty_iff.mp hh) hne
        unfold assignChunks at herr
        rw [if_neg (by rw [hempty]; exact Bool.false_ne_true)] at herr
        exact Except.noConfusion herr
    · intro hempty
      unfold assignChunks
      rw [if_pos (by rw [hempty]; rfl)]
  · intro s2 resp hok ci hci
    have hempty : (availServers cfg s.chunk_servers).isEmpty = false := by
      cases hh : (availServers cfg s.chunk_servers).isEmpty
      · rfl
      · exfalso
        unfold assignChunks at hok
        rw [if_pos (by rw [hh])] at hok
        exact Except.noConfusion hok
    have hne : availServers cfg s.chunk_servers ≠ [] := by
      intro hh
      rw [hh] at hempty
      exact Bool.noConfusion hempty
    unfold assignChunks at hok
    rw [if_neg (by rw [hempty]; exact Bool.false_ne_true)] at hok
    injection hok with hpair
    injection hpair with hs2 hresp
    subst hs2
    subst hresp
    have hsel : ci.server_addresses = assignSelected cfg (availServers cfg s.chunk_servers) :=
      assign_fold_assigned_sel cfg (availServers cfg s.chunk_servers) file_name
        (freshName s.file_chunks file_name) _
        ⟨s.file_chunks, s.chunk_servers, s.chunk_map, []⟩
        (fun c hc => absurd hc (List.not_mem_nil c)) ci hci
    rw [hsel]
    set avail := availServers cfg s.chunk_servers with havail
    have hQne : avail.map (fun p => (p.2.length, p.1)) ≠ [] := by
      intro hh
      exact hne (List.map_eq_nil_iff.mp hh)
    have hselne : assignSelected cfg avail ≠ [] :=
      selectServers_ne_nil cfg.replication_factor cfg.replication_factor _ hrf hQne
    have hnodup : (assignSelected cfg avail).Nodup :=
      selectServers_nodup cfg.replication_factor _ _ _ List.nodup_nil
    have hsubQ : assignSelected cfg avail ⊆ avail.map Prod.fst := by
      intro x hx
      rcases selectServers_mem_subset cfg.replication_factor _ _ _ x hx with hmem | hmem
      · exact absurd hmem (List.not_mem_nil x)
      · rw [List.map_map] at hmem
        exact hmem
    have havail_nodup : (avail.map Prod.fst).Nodup :=
      List.Nodup.sublist (List.Sublist.map Prod.fst (List.filter_sublist _)) hkeys
    refine ⟨hnodup, ?_, ?_, ?_⟩
    · exact Nat.one_le_iff_ne_zero.mpr
        (fun hh => hselne (List.eq_nil_of_length_eq_zero hh))
    · refine le_min ?_ ?_
      · exact selectServers_length_le cfg.replication_factor _ _ _ (Nat.zero_le _)
      · have := List.Subperm.length_le (List.subperm_of_subset hnodup hsubQ)
        simpa using this
    · intro a ha
      obtain ⟨p, hp, hpa⟩ := List.mem_map.mp (hsubQ ha)
      have hmemf := List.mem_filter.mp hp
      refine ⟨p.2, ?_, of_decide_eq_true hmemf.2⟩
      have hpeq : (a, p.2) ∈ s.chunk_servers := by
        rw [← hpa, Prod.mk.eta]
        exact hmemf.1
      exact alookup_eq_of_mem_nodup hpeq hkeys

theorem c2_assign_selection_properties_witness :
    ((twoServersAB.chunk_servers.map Prod.fst).Nodup ∧ 1 ≤ cfgRF2.replication_factor) ∧
    ((assignChunks cfgRF2 twoServersAB "w" 4 = .error .internal ↔
        availServers cfgRF2 twoServersAB.chunk_servers = []) ∧
      (∀ s2 resp, assignChunks cfgRF2 twoServersAB "w" 4 = .ok (s2, resp) →
        ∀ ci ∈ resp.chunk_info_list,
          ci.server_addresses.Nodup ∧
          1 ≤ ci.server_addresses.length ∧
          ci.server_addresses.length ≤
            min cfgRF2.replication_factor (availServers cfgRF2 twoServersAB.chunk_servers).length ∧
          ∀ a ∈ ci.server_addresses,
            ∃ chunks, alookup twoServersAB.chunk_servers a = some chunks ∧
              chunks.length < cfgRF2.max_allowed_chunks)) :=
  ⟨⟨by decide, by decide⟩,
    c2_assign_selection_properties cfgRF2 twoServersAB "w" 4 (by decide) (by decide)⟩

/-- C4 amended: each repair event writes
`ChunkInfo { chunk_id, serverAddresses := selected, version := v + 1 }` where
`v` is the version of the FAILED SERVER'S recorded copy of the chunk — not
the authoritative `ChunkMap` version, which the new value may merely equal
(or even undercut) when that copy is stale. -/
theorem c4_repair_bumps_failed_copy_version (cfg : CommonConfig) (failed_server : String)
    (chunk_info : ChunkInfo) (s : MasterState)
    (h1 : (survivingSources s.file_chunks (fileNamePart chunk_info.chunk_id) chunk_info
            failed_server).isEmpty = false)
    (h2 : ((cfg.replication_factor -
            existingReplicas s.file_chunks (fileNamePart chunk_info.chunk_id) failed_server)
            == 0) = false)
    (h3 : (repairSelected cfg failed_server chunk_info s).isEmpty = false) :
    alookup (repairChunk cfg failed_server chunk_info s).chunk_map chunk_info.chunk_id =
      some ⟨chunk_info.chunk_id, repairSelected cfg failed_server chunk_info s,
            chunk_info.version + 1⟩ := by
  unfold repairChunk
  simp only []
  rw [if_neg (by rw [h1]; exact Bool.false_ne_true),
    if_neg (by rw [h2]; exact Bool.false_ne_true),
    if_neg (by rw [h3]; exact Bool.false_ne_true)]
  exact alookup_ainsert_self _ _ _

theorem c4_repair_bumps_failed_copy_version_witness :
    ((survivingSources c4BothStale.file_chunks (fileNamePart "g_chunk_0")
        ⟨"g_chunk_0", ["A", "B"], 0⟩ "A").isEmpty = false ∧
      ((cfgRF2.replication_factor -
        existingReplicas c4BothStale.file_chunks (fileNamePart "g_chunk_0") "A") == 0) = false ∧
      (repairSelected cfgRF2 "A" ⟨"g_chunk_0", ["A", "B"], 0⟩ c4BothStale).isEmpty = false) ∧
    alookup (repairChunk cfgRF2 "A" ⟨"g_chunk_0", ["A", "B"], 0⟩ c4BothStale).chunk_map
        "g_chunk_0" =
      some ⟨"g_chunk_0", repairSelected cfgRF2 "A" ⟨"g_chunk_0", ["A", "B"], 0⟩ c4BothStale,
            0 + 1⟩ :=
  ⟨⟨by decide, by decide, by decide⟩,
    c4_repair_bumps_failed_copy_version cfgRF2 "A" ⟨"g_chunk_0", ["A", "B"], 0⟩ c4BothStale
      (by decide) (by decide) (by decide)⟩


/-! ### Lemmas about `delete_file` (claim C7) -/

theorem shrinks_refl (cs : List (String × List ChunkInfo)) : Shrinks cs cs :=
  fun _ l h => ⟨l, h, fun _ hx => hx⟩

theorem shrinks_trans {cs1 cs2 cs3 : List (String × List ChunkInfo)}
    (h12 : Shrinks cs1 cs2) (h23 : Shrinks cs2 cs3) : Shrinks cs1 cs3 := by
  intro a l h
  obtain ⟨l2, h2, hsub⟩ := h23 a l h
  obtain ⟨l1, h1, hsub2⟩ := h12 a l2 h2
  exact ⟨l1, h1, fun x hx => hsub2 (hsub hx)⟩

theorem shrinks_noChunkId {cs1 cs2 : List (String × List ChunkInfo)} {a chunk_id : String}
    (hs : Shrinks cs1 cs2) (h : NoChunkId cs1 a chunk_id) : NoChunkId cs2 a chunk_id := by
  intro l hl c hc
  obtain ⟨l0, hl0, hsub⟩ := hs a l hl
  exact h l0 hl0 c (hsub hc)

theorem deleteChunkServerStep_shrinks (ci : ChunkInfo) (cs : List (String × List ChunkInfo))
    (b : String) : Shrinks cs (deleteChunkServerStep ci cs b) := by
  intro a l h
  unfold deleteChunkServerStep at h
  cases hb : alookup cs b with
  | none =>
    rw [hb] at h
    exact ⟨l, h, fun _ hx => hx⟩
  | some bc =>
    rw [hb] at h
    dsimp only at h
    by_cases hr : (bc.filter (fun c => c.chunk_id != ci.chunk_id)).isEmpty
    · rw [if_pos hr] at h
      by_cases hab : a = b
      · rw [hab, alookup_aremove_self] at h
        exact Option.noConfusion h
      · rw [alookup_aremove_ne _ _ _ hab] at h
        exact ⟨l, h, fun _ hx => hx⟩
    · rw [if_neg hr] at h
      by_cases hab : a = b
      · subst hab
        rw [alookup_ainsert_self] at h
        injection h with h
        subst h
        exact ⟨bc, hb, fun x hx => List.mem_of_mem_filter hx⟩
      · rw [alookup_ainsert_ne _ _ _ _ hab] at h
        exact ⟨l, h, fun _ hx => hx⟩

theorem deleteChunkServerStep_fold_shrinks (ci : ChunkInfo) :
    ∀ (addrs : List String) (cs : List (String × List ChunkInfo)),
      Shrinks cs (addrs.foldl (deleteChunkServerStep ci) cs) := by
  intro addrs
  induction addrs with
  | nil => exact fun cs => shrinks_refl cs
  | cons b t ih =>
    intro cs
    rw [List.foldl_cons]
    exact shrinks_trans (deleteChunkServerStep_shrinks ci cs b) (ih _)

theorem deleteChunkFromServers_shrinks (cs : List (String × List ChunkInfo)) (ci : ChunkInfo) :
    Shrinks cs (deleteChunkFromServers cs ci) :=
  deleteChunkServerStep_fold_shrinks ci ci.server_addresses cs

theorem deleteChunkServerStep_establishes (ci : ChunkInfo)
    (cs : List (String × List ChunkInfo)) (b : String) :
    NoChunkId (deleteChunkServerStep ci cs b) b ci.chunk_id := by
  intro l hl c hc
  unfold deleteChunkServerStep at hl
  cases hb : alookup cs b with
  | none =>
    rw [hb] at hl
    dsimp only at hl
    rw [hb] at hl
    exact Option.noConfusion hl
  | some bc =>
    rw [hb] at hl
    dsimp only at hl
    by_cases hr : (bc.filter (fun c => c.chunk_id != ci.chunk_id)).isEmpty
    · rw [if_pos hr, alookup_aremove_self] at hl
      exact Option.noConfusion hl
    · rw [if_neg hr, alookup_ainsert_self] at hl
      injection hl with hl
      subst hl
      have := List.of_mem_filter hc
      simpa using this

theorem deleteChunkFromServers_establishes (cs : List (String × List ChunkInfo))
    (ci : ChunkInfo) :
    ∀ a ∈ ci.server_addresses, NoChunkId (deleteChunkFromServers cs ci) a ci.chunk_id := by
  suffices h : ∀ (addrs : List String) (cs : List (String × List ChunkInfo)),
      ∀ a ∈ addrs, NoChunkId (addrs.foldl (deleteChunkServerStep ci) cs) a ci.chunk_id from
    fun a ha => h ci.server_addresses cs a ha
  intro addrs
  induction addrs with
  | nil => exact fun cs a ha => absurd ha (List.not_mem_nil a)
  | cons b t ih =>
    intro cs a ha
    rw [List.foldl_cons]
    rcases List.mem_cons.mp ha with rfl | hat
    · exact shrinks_noChunkId (deleteChunkServerStep_fold_shrinks ci t _)
        (deleteChunkServerStep_establishes ci cs a)
    · exact ih _ a hat

theorem deleteFile_fold_components (chunks : List ChunkInfo) :
    ∀ (cs : List (String × List ChunkInfo)) (cm : List (String × ChunkInfo)),
      chunks.foldl
        (fun acc chunk_info =>
          (deleteChunkFromServers acc.1 chunk_info, aremove acc.2 chunk_info.chunk_id))
        (cs, cm) =
      (chunks.foldl deleteChunkFromServers cs,
        chunks.foldl (fun cm chunk_info => aremove cm chunk_info.chunk_id) cm) := by
  induction chunks with
  | nil => exact fun cs cm => rfl
  | cons c t ih => exact fun cs cm => by rw [List.foldl_cons, List.foldl_cons, List.foldl_cons, ih]

theorem aremove_fold_preserves_none (chunks : List ChunkInfo) :
    ∀ (cm : List (String × ChunkInfo)) (chunk_id : String), alookup cm chunk_id = none →
      alookup (chunks.foldl (fun cm chunk_info => aremove cm chunk_info.chunk_id) cm) chunk_id =
        none := by
  induction chunks with
  | nil => exact fun cm id h => h
  | cons c t ih =>
    intro cm chunk_id h
    rw [List.foldl_cons]
    refine ih _ _ ?_
    by_cases hid : chunk_id = c.chunk_id
    · rw [hid]
      exact alookup_aremove_self _ _
    · rw [alookup_aremove_ne _ _ _ hid]
      exact h

theorem aremove_fold_none (chunks : List ChunkInfo) :
    ∀ (cm : List (String × ChunkInfo)) (ci : ChunkInfo), ci ∈ chunks →
      alookup (chunks.foldl (fun cm chunk_info => aremove cm chunk_info.chunk_id) cm)
        ci.chunk_id = none := by
  induction chunks with
  | nil => exact fun cm ci h => absurd h (List.not_mem_nil ci)
  | cons c t ih =>
    intro cm ci hci
    rw [List.foldl_cons]
    by_cases hid : ci.chunk_id = c.chunk_id
    · exact aremove_fold_preserves_none t _ _ (hid ▸ alookup_aremove_self cm c.chunk_id)
    · rcases List.mem_cons.mp hci with rfl | hmem
      · exact absurd rfl hid
      · exact ih _ ci hmem

theorem deleteChunks_fold_shrinks (chunks : List ChunkInfo) :
    ∀ (cs : List (String × List ChunkInfo)),
      Shrinks cs (chunks.foldl deleteChunkFromServers cs) := by
  induction chunks with
  | nil => exact fun cs => shrinks_refl cs
  | cons c t ih =>
    intro cs
    rw [List.foldl_cons]
    exact shrinks_trans (deleteChunkFromServers_shrinks cs c) (ih _)

theorem deleteChunks_fold_no_id (chunks : List ChunkInfo) :
    ∀ (cs : List (String × List ChunkInfo)) (ci : ChunkInfo), ci ∈ chunks →
      ∀ a ∈ ci.server_addresses,
        NoChunkId (chunks.foldl deleteChunkFromServers cs) a ci.chunk_id := by
  induction chunks with
  | nil => exact fun cs ci h => absurd h (List.not_mem_nil ci)
  | cons c t ih =>
    intro cs ci hci a ha
    rw [List.foldl_cons]
    rcases List.mem_cons.mp hci with rfl | hmem
    · exact shrinks_noChunkId (deleteChunks_fold_shrinks t _)
        (deleteChunkFromServers_establishes cs ci a ha)
    · exact ih _ ci hmem a ha

/-- C7 counterexample: after `B`'s failure the chunk `g_chunk_0` is repaired
onto `C`, but `A` still holds the blob and heartbeats it back into its load
entry; `DeleteFile("g")` then succeeds, removes the file entry and the
`chunk_map` entry, and cleans the load of `C` (the only recorded address) —
yet `A`'s load entry still contains `g_chunk_0`, which is
`"g" ++ "_chunk_" ++ 0` for the listed index 0, refuting the claim's
"no server's load list contains such a chunkId". -/
theorem c7_delete_leaves_stale_entry :
    alookup c7Refreshed.file_chunks "g" = some [⟨"g_chunk_0", ["C"], 1⟩] ∧
    (deleteFile c7Refreshed "g").2.success = true ∧
    alookup c7Deleted.1.file_chunks "g" = none ∧
    alookup c7Deleted.1.chunk_map "g_chunk_0" = none ∧
    alookup c7Deleted.1.chunk_servers "C" = none ∧
    alookup c7Deleted.1.chunk_servers "A" = some [⟨"g_chunk_0", ["C"], 1⟩] ∧
    "g_chunk_0" = "g" ++ "_chunk_" ++ Nat.repr 0 := by
  decide

/-- C7 amended: after a successful `DeleteFile(f)`, `f` is gone from
`FileChunks`, every LISTED chunk's id is gone from `ChunkMap`, and it is gone
from the load entry of every server RECORDED in that chunk's
`serverAddresses` — but a stale holder outside `serverAddresses` keeps its
entry. -/
theorem c7_delete_cleans_recorded_metadata (s : MasterState) (f : String)
    (chunks : List ChunkInfo) (h : alookup s.file_chunks f = some chunks) :
    (deleteFile s f).2.success = true ∧
    alookup (deleteFile s f).1.file_chunks f = none ∧
    (∀ ci ∈ chunks, alookup (deleteFile s f).1.chunk_map ci.chunk_id = none) ∧
    (∀ ci ∈ chunks, ∀ a ∈ ci.server_addresses,
      NoChunkId (deleteFile s f).1.chunk_servers a ci.chunk_id) := by
  unfold deleteFile
  rw [h]
  dsimp only
  rw [deleteFile_fold_components]
  refine ⟨rfl, alookup_aremove_self _ _, ?_, ?_⟩
  · intro ci hci
    exact aremove_fold_none chunks s.chunk_map ci hci
  · intro ci hci a ha
    exact deleteChunks_fold_no_id chunks s.chunk_servers ci hci a ha

theorem c7_delete_cleans_recorded_metadata_witness :
    alookup (stateOf c1Call).file_chunks "f.txt" = some [⟨"f.txt_chunk_2", ["A", "B"], 0⟩] ∧
    ((deleteFile (stateOf c1Call) "f.txt").2.success = true ∧
      alookup (deleteFile (stateOf c1Call) "f.txt").1.file_chunks "f.txt" = none ∧
      (∀ ci ∈ [(⟨"f.txt_chunk_2", ["A", "B"], 0⟩ : ChunkInfo)],
        alookup (deleteFile (stateOf c1Call) "f.txt").1.chunk_map ci.chunk_id = none) ∧
      (∀ ci ∈ [(⟨"f.txt_chunk_2", ["A", "B"], 0⟩ : ChunkInfo)], ∀ a ∈ ci.server_addresses,
        NoChunkId (deleteFile (stateOf c1Call) "f.txt").1.chunk_servers a ci.chunk_id)) :=
  ⟨by decide,
    c7_delete_cleans_recorded_metadata (stateOf c1Call) "f.txt"
      [⟨"f.txt_chunk_2", ["A", "B"], 0⟩] (by decide)⟩

end RustFS
